import Mathlib

/-!
Verification development for the routezero repository (src/routezero.py).

Python strings are modelled as lists of characters (`PyStr`), which matches
Python's view of a `str` as a sequence of code points.  Fallible Python code
is modelled with `Option`: a `none` result stands for a raised exception.
-/

abbrev PyStr := List Char

def pstr (s : String) : PyStr := s.toList

/-- Python `s.strip(".")`: remove leading and trailing `.` characters. -/
def stripDots (s : PyStr) : PyStr :=
  ((s.dropWhile (fun c => c = '.')).reverse.dropWhile (fun c => c = '.')).reverse

/-- Python `s.rstrip(".")`: remove trailing `.` characters. -/
def rstripDots (s : PyStr) : PyStr :=
  (s.reverse.dropWhile (fun c => c = '.')).reverse

/-- Python `s.split(sep)` for a one-character separator.  As in Python,
`"".split(".") = [""]` and separators at the ends produce empty fields. -/
def splitOnChar (c : Char) : List Char → List PyStr
  | [] => [[]]
  | x :: xs =>
    if x = c then [] :: splitOnChar c xs
    else
      match splitOnChar c xs with
      | [] => [[x]]
      | g :: gs => (x :: g) :: gs

/-- Python `sep.join(parts)` for a one-character separator: the parts
concatenated with one separator between consecutive parts. -/
def joinChar (c : Char) : List PyStr → PyStr
  | [] => []
  | [g] => g
  | g :: rest => g ++ c :: joinChar c rest

/-!  Model of the Python standard-library punycode codec (RFC 3492 encoder),
which `label.encode("punycode")` invokes for the non-ASCII branch of
`punify_label`.  The encoder's outer loop is given a fuel bound; on every
input the codec actually reaches, the fuel is sufficient. -/

def punyDigitChar (d : Nat) : Char :=
  if d < 26 then Char.ofNat (d + 97) else Char.ofNat (d + 22)

def punyAdaptLoop (delta k : Nat) : Nat × Nat :=
  if h : 455 < delta then punyAdaptLoop (delta / 35) (k + 36) else (delta, k)
termination_by delta
decreasing_by exact Nat.div_lt_self (by omega) (by omega)

def punyAdapt (delta numpoints : Nat) (firsttime : Bool) : Nat :=
  let d := if firsttime then delta / 700 else delta / 2
  let d2 := d + d / numpoints
  let p := punyAdaptLoop d2 0
  p.2 + (36 * p.1) / (p.1 + 38)

def punyThreshold (bias k : Nat) : Nat :=
  if k ≤ bias then 1 else if 26 ≤ k - bias then 26 else k - bias

def punyEncodeVarInt (bias q k : Nat) : PyStr :=
  if h : q < punyThreshold bias k then [punyDigitChar q]
  else
    punyDigitChar (punyThreshold bias k + (q - punyThreshold bias k) % (36 - punyThreshold bias k))
      :: punyEncodeVarInt bias ((q - punyThreshold bias k) / (36 - punyThreshold bias k)) (k + 36)
termination_by q
decreasing_by
  have h1 : 1 ≤ punyThreshold bias k := by unfold punyThreshold; split_ifs <;> omega
  have h2 : punyThreshold bias k ≤ 26 := by unfold punyThreshold; split_ifs <;> omega
  have h3 := Nat.div_le_self (q - punyThreshold bias k) (36 - punyThreshold bias k)
  omega

structure PunyState where
  delta : Nat
  bias : Nat
  handled : Nat
  out : PyStr

def punyHandleChar (b n : Nat) (st : PunyState) (c : Char) : PunyState :=
  if c.toNat < n then { st with delta := st.delta + 1 }
  else if c.toNat = n then
    { delta := 0
      bias := punyAdapt st.delta (st.handled + 1) (decide (st.handled = b))
      handled := st.handled + 1
      out := st.out ++ punyEncodeVarInt st.bias st.delta 36 }
  else st

def minCpGe (input : PyStr) (n : Nat) : Option Nat :=
  ((input.map Char.toNat).filter (fun m => n ≤ m)).min?

def punyOuter (input : PyStr) (b : Nat) :
    Nat → Nat → Nat → Nat → Nat → PyStr → PyStr
  | 0, _, _, _, _, out => out
  | fuel + 1, n, delta, bias, handled, out =>
    if handled < input.length then
      match minCpGe input n with
      | none => out
      | some m =>
        let d := delta + (m - n) * (handled + 1)
        let st := input.foldl (punyHandleChar b m) ⟨d, bias, handled, out⟩
        punyOuter input b fuel (m + 1) (st.delta + 1) st.bias st.handled st.out
    else out

def punycodeEncode (input : PyStr) : PyStr :=
  let basic := input.filter (fun c => c.toNat < 128)
  let b := basic.length
  let out := if 0 < b then basic ++ ['-'] else basic
  punyOuter input b (input.length + 1) 128 0 72 b out

/-!  The functions of src/routezero.py. -/

/-- `punify_label` (routezero.py line 52): `label.encode("ascii")` succeeds
exactly when every code point is below 128, in which case the label is
returned unchanged; otherwise the punycode-encoded form is prefixed with
the four characters `xn--`. -/
def punify_label (label : PyStr) : PyStr :=
  if label.all (fun c => c.toNat < 128) then label
  else pstr ("xn--") ++ punycodeEncode label

def isLDHChar (c : Char) : Bool :=
  decide ('A' ≤ c ∧ c ≤ 'Z') || decide ('a' ≤ c ∧ c ≤ 'z') ||
    decide ('0' ≤ c ∧ c ≤ '9') || decide (c = '-')

/-- Semantics of a match of the regex `(?!-)[A-Z\d-]{1,63}(?<!-)$` (with
IGNORECASE) against a label, ignoring the `$`-before-final-newline case:
1 to 63 characters, all alphanumeric or hyphen, not starting or ending
with a hyphen. -/
def labelCore (l : PyStr) : Bool :=
  decide (1 ≤ l.length) && decide (l.length ≤ 63) && l.all isLDHChar &&
    !(decide (l.head? = some '-')) && !(decide (l.getLast? = some '-'))

/-- `allowed.match(x)` for the compiled regex of `is_valid_hostname`
(routezero.py line 64).  Python's `$` also matches just before a newline
that ends the string, so a label whose final character is a newline
matches when the part before the newline does. -/
def labelMatch (l : PyStr) : Bool :=
  labelCore l || (decide (l.getLast? = some '\n') && labelCore l.dropLast)

/-- Python `hostname[:-1]` applied when `hostname[-1] == "."`. -/
def trimTrailingDot (hostname : PyStr) : PyStr :=
  if hostname.getLast? = some '.' then hostname.dropLast else hostname

/-- `is_valid_hostname` (routezero.py lines 59-65).  The result is
`none` when the Python code raises: for the empty string the expression
`hostname[-1]` raises `IndexError` before anything is returned. -/
def is_valid_hostname (hostname : PyStr) : Option Bool :=
  if 255 < hostname.length then some false
  else
    match hostname.getLast? with
    | none => none
    | some _ =>
      some ((splitOnChar '.' (trimTrailingDot hostname)).all labelMatch)

/-- Python `address[i:i+4] for i in range(0, len(address), 4)`: cut a
character list into consecutive chunks of four (the final chunk may be
shorter). -/
def chunk4 : List Char → List PyStr
  | [] => []
  | [a] => [[a]]
  | [a, b] => [[a, b]]
  | [a, b, c] => [[a, b, c]]
  | a :: b :: c :: d :: rest => [a, b, c, d] :: chunk4 rest

/-- `get_rfc4193_address` (routezero.py lines 68-70). -/
def get_rfc4193_address (network_id node_id : PyStr) : PyStr :=
  joinChar ':' (chunk4 (pstr ("fd") ++ network_id ++ pstr ("9993") ++ node_id))

/-- `dnsjoin` (routezero.py lines 73-75). -/
def dnsjoin (args : List PyStr) : PyStr :=
  joinChar '.'
    (((args.map (fun a => splitOnChar '.' (stripDots a))).flatten).map punify_label)

/-!  Data model: the parts of the ZeroTier API response that
`create_records` reads, mirroring the JSON nesting that the source
indexes into (`network["config"]["v6AssignMode"]["rfc4193"]`,
`member["config"]["authorized"]`, ...). -/

structure MemberConfig where
  authorized : Bool
  ipAssignments : List PyStr
deriving DecidableEq, Repr

structure Member where
  nodeId : PyStr
  name : PyStr
  config : MemberConfig
deriving DecidableEq, Repr

structure V6AssignMode where
  rfc4193 : Bool
deriving DecidableEq, Repr

structure NetworkConfig where
  v6AssignMode : V6AssignMode
deriving DecidableEq, Repr

structure Network where
  id : PyStr
  config : NetworkConfig
  members : List Member
deriving DecidableEq, Repr

/-- A record type key (`"TXT"`, `"A"`, `"AAAA"`, `"CNAME"`) paired with
its ordered value list, inside the per-name dictionary. -/
abbrev TypeMap := List (PyStr × List PyStr)

/-- The `records` accumulator of `create_records`: a dictionary from DNS
name to a dictionary from record type to value list, modelled as an
insertion-ordered association list with unique keys, exactly the
semantics of Python's `collections.defaultdict(dict)`. -/
abbrev RecordSet := List (PyStr × TypeMap)

/-- First-match lookup in an association list (Python `d[k]` /
`k in d`). -/
def getAssoc {α : Type} : List (PyStr × α) → PyStr → Option α
  | [], _ => none
  | (k', v') :: rest, k => if k' = k then some v' else getAssoc rest k

/-- Python `d[k] = v`: update the existing key in place, else append a
new binding at the end (dicts preserve insertion order). -/
def setAssoc {α : Type} : List (PyStr × α) → PyStr → α → List (PyStr × α)
  | [], k, v => [(k, v)]
  | (k', v') :: rest, k, v =>
    if k' = k then (k, v) :: rest else (k', v') :: setAssoc rest k v

/-- `records[name][t] = v` on a `defaultdict(dict)`: a missing outer key
is created with an empty inner dictionary first. -/
def setRecord : RecordSet → PyStr → PyStr → List PyStr → RecordSet
  | [], name, t, v => [(name, [(t, v)])]
  | (n', inner) :: rest, name, t, v =>
    if n' = name then (name, setAssoc inner t v) :: rest
    else (n', inner) :: setRecord rest name t v

/-- Reading `records[name][t]` without creating entries. -/
def getRecord (r : RecordSet) (name t : PyStr) : Option (List PyStr) :=
  (getAssoc r name).bind (fun inner => getAssoc inner t)

def NAME_NAMESPACE : PyStr := pstr ("zerotier")
def NODE_NAMESPACE : PyStr := pstr ("zerotier-node")

/-- `'"' + network["id"] + '"'` (routezero.py line 81). -/
def quoteTxt (s : PyStr) : PyStr := '"' :: (s ++ ['"'])

/-- The DNS name `dnsjoin(member["nodeId"], NODE_NAMESPACE, zone_name)`
(routezero.py line 85). -/
def nodeDnsName (zone_name : PyStr) (m : Member) : PyStr :=
  dnsjoin [m.nodeId, NODE_NAMESPACE, zone_name]

/-- The DNS name `dnsjoin(member["name"], NAME_NAMESPACE, zone_name)`
(routezero.py line 86). -/
def friendlyDnsName (zone_name : PyStr) (m : Member) : PyStr :=
  dnsjoin [m.name, NAME_NAMESPACE, zone_name]

/-- The list `ipv4` of routezero.py line 87: assignments without a
colon. -/
def memberIpv4 (m : Member) : List PyStr :=
  m.config.ipAssignments.filter (fun ip => !ip.contains ':')

/-- The list `ipv6` of routezero.py lines 88-90: assignments containing
a colon, with the derived RFC 4193 address appended when the network has
`rfc4193` assignment enabled. -/
def memberIpv6 (network : Network) (m : Member) : List PyStr :=
  if network.config.v6AssignMode.rfc4193 then
    m.config.ipAssignments.filter (fun ip => ip.contains ':') ++
      [get_rfc4193_address network.id m.nodeId]
  else m.config.ipAssignments.filter (fun ip => ip.contains ':')

/-- One iteration of the member loop of `create_records` (routezero.py
lines 82-94).  The `is_valid_hostname` call is matched against
`some true`: its argument always contains the label `zerotier`, so it is
never the empty string and the call never raises at this site. -/
def addMember (zone_name : PyStr) (network : Network) (r : RecordSet) (m : Member) :
    RecordSet :=
  if !m.config.authorized || m.config.ipAssignments.isEmpty then r
  else
    let r1 := setRecord r (nodeDnsName zone_name m) (pstr ("A")) (memberIpv4 m)
    let r2 := setRecord r1 (nodeDnsName zone_name m) (pstr ("AAAA")) (memberIpv6 network m)
    if is_valid_hostname (friendlyDnsName zone_name m) = some true then
      setRecord r2 (friendlyDnsName zone_name m) (pstr ("CNAME")) [nodeDnsName zone_name m]
    else r2

/-- `create_records` (routezero.py lines 78-95). -/
def create_records (zone_name : PyStr) (network : Network) : RecordSet :=
  let r0 :=
    [NAME_NAMESPACE, NODE_NAMESPACE].foldl
      (fun r ns => setRecord r (dnsjoin [ns, zone_name]) (pstr ("TXT")) [quoteTxt network.id])
      []
  network.members.foldl (addMember zone_name network) r0

/-!  Model of `create_template` (routezero.py lines 98-114).  The
troposphere `Template` is modelled as its description plus the ordered
list of resources keyed by logical name; `uuid.uuid4()` is an external
randomness source, so the canonical 36-character string it renders to is
passed in as an explicit argument. -/

structure RSet where
  name : PyStr
  type : PyStr
  resourceRecords : List PyStr
  ttl : Nat
deriving DecidableEq, Repr

inductive CfnResource
  | recordSetGroup (hostedZoneName : PyStr) (recordSets : List RSet)
  | waitConditionHandle
deriving DecidableEq, Repr

structure CfnTemplate where
  description : PyStr
  resources : List (PyStr × CfnResource)
deriving DecidableEq, Repr

/-- Python `str.upper()` restricted to its ASCII action, which is all
the call site ever exercises (uuid renderings are ASCII). -/
def pyUpperChar (c : Char) : Char :=
  if 'a' ≤ c ∧ c ≤ 'z' then Char.ofNat (c.toNat - 32) else c

/-- `str(uuid.uuid4()).replace("-", "").upper()` (routezero.py
line 112), as a function of the rendered uuid string. -/
def dummySuffix (u : PyStr) : PyStr :=
  (u.filter (fun c => c ≠ '-')).map pyUpperChar

/-- Logical name of the inert marker resource added on every
invocation. -/
def dummyChangeName (u : PyStr) : PyStr := pstr ("DummyChange") ++ dummySuffix u

/-- `create_template` (routezero.py lines 98-114), with the fresh uuid
rendering `u` made explicit. -/
def create_template (zone_name : PyStr) (records : RecordSet) (u : PyStr) :
    CfnTemplate :=
  let zone := rstripDots zone_name ++ ['.']
  let record_sets :=
    (records.map (fun nr => nr.2.map (fun tv => RSet.mk nr.1 tv.1 tv.2 300))).flatten
  { description := pstr ("Dynamic DNS entries for ZeroTier")
    resources :=
      [(pstr ("Records"), CfnResource.recordSetGroup zone record_sets),
       (dummyChangeName u, CfnResource.waitConditionHandle)] }

/-- Canonical rendering of a version-4 uuid: five groups of lowercase
hex digits of lengths 8, 4, 4, 4 and 12, separated by hyphens. -/
def isLowerHexDigit (c : Char) : Bool := decide (c ∈ pstr ("0123456789abcdef"))

def uuidCanonical (u : PyStr) : Prop :=
  ∃ a b c d e : PyStr,
    u = a ++ '-' :: (b ++ '-' :: (c ++ '-' :: (d ++ '-' :: e))) ∧
    a.length = 8 ∧ b.length = 4 ∧ c.length = 4 ∧ d.length = 4 ∧ e.length = 12 ∧
    ∀ x ∈ a ++ b ++ c ++ d ++ e, isLowerHexDigit x

/-!  Model of `deploy_stack` (routezero.py lines 117-128).  The boto3
CloudFormation client is the external backend; its behaviour on this run
is a `CfnBackend` record.  `deploy_stack` is given trace semantics: the
result carries the ordered list of backend calls the driver submitted,
and `raised` marks an uncaught exception propagating to the caller. -/

inductive SubmitOutcome
  | ok
  | alreadyExists
  | otherError
deriving DecidableEq, Repr

inductive WaitOutcome
  | complete
  | waiterError
deriving DecidableEq, Repr

inductive CfnMethod
  | create
  | update
deriving DecidableEq, Repr

inductive CfnOp
  | createStack
  | updateStack
  | waitCreateComplete
  | waitUpdateComplete
deriving DecidableEq, Repr

structure CfnBackend where
  createOutcome : SubmitOutcome
  updateOutcome : SubmitOutcome
  createWait : WaitOutcome
  updateWait : WaitOutcome
deriving DecidableEq, Repr

def CfnBackend.submit (b : CfnBackend) : CfnMethod → SubmitOutcome
  | .create => b.createOutcome
  | .update => b.updateOutcome

def CfnBackend.wait (b : CfnBackend) : CfnMethod → WaitOutcome
  | .create => b.createWait
  | .update => b.updateWait

def submitOp : CfnMethod → CfnOp
  | .create => .createStack
  | .update => .updateStack

def waitOp : CfnMethod → CfnOp
  | .create => .waitCreateComplete
  | .update => .waitUpdateComplete

inductive DeployResult
  | success (trace : List CfnOp)
  | raised (trace : List CfnOp)
deriving DecidableEq, Repr

/-- The `for method, waiter in methods` loop of `deploy_stack`: only
`AlreadyExistsException` is caught (leading to `continue`); any other
exception from the submission or the waiter propagates.  Note the loop
body has no `break`: after a successful submission and wait, the loop
proceeds to the next method. -/
def deployLoop (b : CfnBackend) : List CfnMethod → List CfnOp → DeployResult
  | [], tr => .success tr
  | m :: rest, tr =>
    match b.submit m with
    | .alreadyExists => deployLoop b rest (tr ++ [submitOp m])
    | .otherError => .raised (tr ++ [submitOp m])
    | .ok =>
      match b.wait m with
      | .waiterError => .raised (tr ++ [submitOp m, waitOp m])
      | .complete => deployLoop b rest (tr ++ [submitOp m, waitOp m])

/-- `deploy_stack` (routezero.py lines 117-128): the methods list is
`[(create_stack, stack_create_complete), (update_stack,
stack_update_complete)]`. -/
def deploy_stack (b : CfnBackend) : DeployResult :=
  deployLoop b [CfnMethod.create, CfnMethod.update] []

/-!  Lemmas about the dictionary model. -/

theorem getAssoc_setAssoc {α : Type} (l : List (PyStr × α)) (k k' : PyStr) (v : α) :
    getAssoc (setAssoc l k v) k' = if k = k' then some v else getAssoc l k' := by
  induction l with
  | nil => simp [setAssoc, getAssoc]
  | cons p rest ih =>
    obtain ⟨k₀, v₀⟩ := p
    by_cases h0 : k₀ = k
    · subst h0
      by_cases h1 : k₀ = k' <;> simp [setAssoc, getAssoc, h1]
    · by_cases h1 : k₀ = k'
      · have hkk : ¬ k = k' := fun h => h0 (h1.trans h.symm)
        have hkk' : ¬ k' = k := fun h => hkk h.symm
        simp [setAssoc, getAssoc, h0, h1, hkk, hkk']
      · simp [setAssoc, getAssoc, h0, h1, ih]

theorem getAssoc_setRecord (r : RecordSet) (n t : PyStr) (v : List PyStr)
    (n' : PyStr) :
    getAssoc (setRecord r n t v) n' =
      if n = n' then some (setAssoc ((getAssoc r n).getD []) t v)
      else getAssoc r n' := by
  induction r with
  | nil => by_cases h : n = n' <;> simp [setRecord, getAssoc, setAssoc, h]
  | cons p rest ih =>
    obtain ⟨n₀, inner⟩ := p
    by_cases h0 : n₀ = n
    · subst h0
      by_cases h1 : n₀ = n' <;> simp [setRecord, getAssoc, h1]
    · by_cases h1 : n₀ = n'
      · have hnn : ¬ n = n' := fun h => h0 (h1.trans h.symm)
        have hnn' : ¬ n' = n := fun h => hnn h.symm
        simp [setRecord, getAssoc, h0, h1, hnn, hnn']
      · simp [setRecord, getAssoc, h0, h1, ih]

theorem getRecord_setRecord (r : RecordSet) (n t : PyStr) (v : List PyStr)
    (n' t' : PyStr) :
    getRecord (setRecord r n t v) n' t' =
      if n = n' ∧ t = t' then some v else getRecord r n' t' := by
  by_cases h : n = n'
  · subst h
    by_cases ht : t = t'
    · subst ht
      simp [getRecord, getAssoc_setRecord, getAssoc_setAssoc]
    · cases hg : getAssoc r n with
      | none => simp [getRecord, getAssoc_setRecord, getAssoc_setAssoc, ht, hg, getAssoc]
      | some inner => simp [getRecord, getAssoc_setRecord, getAssoc_setAssoc, ht, hg]
  · simp [getRecord, getAssoc_setRecord, h]

/-- A member is dropped by the `continue` on routezero.py line 83 exactly
when it is unauthorized or has no IP assignments. -/
def memberActive (m : Member) : Prop :=
  m.config.authorized = true ∧ m.config.ipAssignments ≠ []

instance (m : Member) : Decidable (memberActive m) := by
  unfold memberActive; infer_instance

theorem addMember_skip (z : PyStr) (net : Network) (r : RecordSet) (m : Member)
    (h : ¬ memberActive m) : addMember z net r m = r := by
  unfold memberActive at h
  unfold addMember
  rcases Decidable.not_and_iff_or_not.mp h with h1 | h1
  · simp [Bool.not_eq_true] at h1
    simp [h1]
  · simp at h1
    simp [h1]

theorem addMember_active_guard (m : Member) (hm : memberActive m) :
    (!m.config.authorized || m.config.ipAssignments.isEmpty) = false := by
  obtain ⟨h1, h2⟩ := hm
  simp [h1, h2]

theorem getRecord_addMember_untouched (z : PyStr) (net : Network) (r : RecordSet)
    (m : Member) (k t : PyStr) (hnode : ¬ nodeDnsName z m = k)
    (ht : ¬ t = pstr ("CNAME")) :
    getRecord (addMember z net r m) k t = getRecord r k t := by
  have ht' : ¬ pstr ("CNAME") = t := fun h => ht h.symm
  unfold addMember
  by_cases hg : (!m.config.authorized || m.config.ipAssignments.isEmpty) = true
  · rw [if_pos hg]
  · rw [if_neg hg]
    split <;> simp [getRecord_setRecord, hnode, ht']

theorem getRecord_addMember_A (z : PyStr) (net : Network) (r : RecordSet)
    (m : Member) (hm : memberActive m) :
    getRecord (addMember z net r m) (nodeDnsName z m) (pstr ("A")) =
      some (memberIpv4 m) := by
  unfold addMember
  rw [if_neg (by rw [addMember_active_guard m hm]; exact Bool.false_ne_true)]
  split <;>
    simp [getRecord_setRecord, (by decide : ¬ pstr ("CNAME") = pstr ("A")),
      (by decide : ¬ pstr ("AAAA") = pstr ("A"))]

theorem getRecord_addMember_AAAA (z : PyStr) (net : Network) (r : RecordSet)
    (m : Member) (hm : memberActive m) :
    getRecord (addMember z net r m) (nodeDnsName z m) (pstr ("AAAA")) =
      some (memberIpv6 net m) := by
  unfold addMember
  rw [if_neg (by rw [addMember_active_guard m hm]; exact Bool.false_ne_true)]
  split <;>
    simp [getRecord_setRecord, (by decide : ¬ pstr ("CNAME") = pstr ("AAAA"))]

theorem getRecord_addMember_CNAME (z : PyStr) (net : Network) (r : RecordSet)
    (m : Member) (hm : memberActive m)
    (hvalid : is_valid_hostname (friendlyDnsName z m) = some true) :
    getRecord (addMember z net r m) (friendlyDnsName z m) (pstr ("CNAME")) =
      some [nodeDnsName z m] := by
  unfold addMember
  rw [if_neg (by rw [addMember_active_guard m hm]; exact Bool.false_ne_true)]
  rw [if_pos hvalid]
  simp [getRecord_setRecord]

theorem getRecord_foldl_untouched (z : PyStr) (net : Network) (l : List Member)
    (r : RecordSet) (k t : PyStr)
    (h : ∀ m' ∈ l, memberActive m' → ¬ nodeDnsName z m' = k)
    (ht : ¬ t = pstr ("CNAME")) :
    getRecord (l.foldl (addMember z net) r) k t = getRecord r k t := by
  induction l generalizing r with
  | nil => rfl
  | cons m rest ih =>
    rw [List.foldl_cons]
    by_cases hm : memberActive m
    · rw [ih _ (fun m' hm' => h m' (List.mem_cons_of_mem _ hm')),
        getRecord_addMember_untouched z net r m k t (h m (List.mem_cons_self _ _) hm) ht]
    · rw [addMember_skip z net r m hm]
      exact ih _ (fun m' hm' => h m' (List.mem_cons_of_mem _ hm'))

/-- Partial applications of `addMember` to two networks differing only
in their member list are the same function: the loop body reads only the
network's `id` and `config`. -/
theorem addMember_members_irrel (z i : PyStr) (cfg : NetworkConfig)
    (ms ms' : List Member) :
    addMember z ⟨i, cfg, ms⟩ = addMember z ⟨i, cfg, ms'⟩ := rfl

/-- C7: `create_records` is a pure function of the zone name and the
snapshot; the embedding exposes no randomness and no external state, so
two calls on a fixed snapshot return identical record sets. -/
theorem create_records_deterministic (zone_name : PyStr) (network : Network) :
    create_records zone_name network = create_records zone_name network := rfl

/-- C2: trace of `deploy_stack` over the backend model.  After a
successful create submission whose waiter reaches the create-complete
state, the loop continues into the update method instead of stopping
(there is no `break`), so an `updateStack` submission appears in the
trace; when the backend rejects that same-template update (the
CloudFormation "no updates are to be performed" error, which is not an
`AlreadyExistsException`), the driver raises.  The already-exists branch
does fall through to the update path without surfacing an error. -/
theorem deploy_stack_submits_update_after_create :
    deploy_stack ⟨.ok, .otherError, .complete, .complete⟩ =
      .raised [.createStack, .waitCreateComplete, .updateStack] ∧
    deploy_stack ⟨.ok, .ok, .complete, .complete⟩ =
      .success [.createStack, .waitCreateComplete, .updateStack, .waitUpdateComplete] ∧
    deploy_stack ⟨.alreadyExists, .ok, .complete, .complete⟩ =
      .success [.createStack, .updateStack, .waitUpdateComplete] :=
  ⟨rfl, rfl, rfl⟩

/-- C5: a member that is unauthorized or has no IP assignments
contributes nothing: `create_records` returns the same record set as on
the snapshot with that member removed, whatever its other fields. -/
theorem create_records_skips_inactive (z i : PyStr) (cfg : NetworkConfig)
    (l1 l2 : List Member) (m : Member)
    (h : m.config.authorized = false ∨ m.config.ipAssignments = []) :
    create_records z ⟨i, cfg, l1 ++ m :: l2⟩ =
      create_records z ⟨i, cfg, l1 ++ l2⟩ := by
  have hna : ¬ memberActive m := by
    unfold memberActive
    rcases h with h | h <;> simp [h]
  unfold create_records
  dsimp only
  rw [List.foldl_append, List.foldl_cons, addMember_skip _ _ _ _ hna,
    ← List.foldl_append, addMember_members_irrel z i cfg (l1 ++ m :: l2) (l1 ++ l2)]

/-- C5 witness: a concrete snapshot with one unauthorized member, whose
removal leaves the record set unchanged. -/
theorem create_records_skips_inactive_witness :
    ((⟨pstr ("deadbeef01"), pstr ("laptop"),
        ⟨false, [pstr ("10.0.0.5")]⟩⟩ : Member).config.authorized = false ∨
      (⟨pstr ("deadbeef01"), pstr ("laptop"),
        ⟨false, [pstr ("10.0.0.5")]⟩⟩ : Member).config.ipAssignments = []) ∧
    create_records (pstr ("example.com"))
        ⟨pstr ("abcd0123456789ab"), ⟨⟨false⟩⟩,
          [⟨pstr ("deadbeef01"), pstr ("laptop"), ⟨false, [pstr ("10.0.0.5")]⟩⟩]⟩ =
      create_records (pstr ("example.com"))
        ⟨pstr ("abcd0123456789ab"), ⟨⟨false⟩⟩, []⟩ :=
  ⟨Or.inl rfl,
    create_records_skips_inactive (pstr ("example.com")) (pstr ("abcd0123456789ab"))
      ⟨⟨false⟩⟩ [] [] ⟨pstr ("deadbeef01"), pstr ("laptop"), ⟨false, [pstr ("10.0.0.5")]⟩⟩
      (Or.inl rfl)⟩

/-- C6: for an active member, the record set holds at its node name an
`A` list that is exactly the colon-free sublist of `ipAssignments` and
an `AAAA` list that is exactly the colon-containing sublist (with the
derived RFC 4193 address appended when enabled): membership is decided
by the presence of a colon, nothing is duplicated or dropped, and
`List.filter` preserves relative order.  Later members that are active
and share the node name would overwrite it, hence the last
hypothesis. -/
theorem create_records_partitions_ips (z i : PyStr) (cfg : NetworkConfig)
    (l1 l2 : List Member) (m : Member)
    (hAuth : m.config.authorized = true) (hIps : m.config.ipAssignments ≠ [])
    (hLater : ∀ m' ∈ l2, m'.config.authorized = true →
      m'.config.ipAssignments ≠ [] → ¬ nodeDnsName z m' = nodeDnsName z m) :
    getRecord (create_records z ⟨i, cfg, l1 ++ m :: l2⟩) (nodeDnsName z m)
        (pstr ("A")) =
      some (m.config.ipAssignments.filter (fun ip => !ip.contains ':')) ∧
    getRecord (create_records z ⟨i, cfg, l1 ++ m :: l2⟩) (nodeDnsName z m)
        (pstr ("AAAA")) =
      some (if cfg.v6AssignMode.rfc4193 then
          m.config.ipAssignments.filter (fun ip => ip.contains ':') ++
            [get_rfc4193_address i m.nodeId]
        else m.config.ipAssignments.filter (fun ip => ip.contains ':')) := by
  have hm : memberActive m := ⟨hAuth, hIps⟩
  have hL : ∀ m' ∈ l2, memberActive m' → ¬ nodeDnsName z m' = nodeDnsName z m :=
    fun m' h hm' => hLater m' h hm'.1 hm'.2
  constructor
  · unfold create_records
    dsimp only
    rw [List.foldl_append, List.foldl_cons,
      getRecord_foldl_untouched _ _ _ _ _ _ hL (by decide)]
    exact getRecord_addMember_A z _ _ m hm
  · unfold create_records
    dsimp only
    rw [List.foldl_append, List.foldl_cons,
      getRecord_foldl_untouched _ _ _ _ _ _ hL (by decide)]
    exact getRecord_addMember_AAAA z _ _ m hm

/-- C6 witness: one active member with a mixed IPv4/IPv6 assignment
list, on a network with RFC 4193 assignment disabled. -/
theorem create_records_partitions_ips_witness :
    (⟨pstr ("deadbeef01"), pstr ("laptop"),
        ⟨true, [pstr ("10.0.0.5"), pstr ("fd00::1"), pstr ("192.168.1.2")]⟩⟩ :
        Member).config.authorized = true ∧
    getRecord
        (create_records (pstr ("example.com"))
          ⟨pstr ("abcd0123456789ab"), ⟨⟨false⟩⟩,
            [⟨pstr ("deadbeef01"), pstr ("laptop"),
              ⟨true, [pstr ("10.0.0.5"), pstr ("fd00::1"), pstr ("192.168.1.2")]⟩⟩]⟩)
        (nodeDnsName (pstr ("example.com"))
          ⟨pstr ("deadbeef01"), pstr ("laptop"),
            ⟨true, [pstr ("10.0.0.5"), pstr ("fd00::1"), pstr ("192.168.1.2")]⟩⟩)
        (pstr ("A")) =
      some [pstr ("10.0.0.5"), pstr ("192.168.1.2")] := by
  refine ⟨rfl, ?_⟩
  have h :=
    (create_records_partitions_ips (pstr ("example.com")) (pstr ("abcd0123456789ab"))
      ⟨⟨false⟩⟩ [] []
      ⟨pstr ("deadbeef01"), pstr ("laptop"),
        ⟨true, [pstr ("10.0.0.5"), pstr ("fd00::1"), pstr ("192.168.1.2")]⟩⟩
      rfl (by decide) (by simp)).1
  simp only [List.nil_append] at h
  rw [h]
  decide

/-- C10: when the snapshot's last member is active, shares its `name`
with an earlier active member, and its friendly name is a valid
hostname, the record set maps that friendly name's CNAME to exactly the
last member's node name: the earlier member's CNAME entry was silently
overwritten, no error is reported, and the value lists are not
merged. -/
theorem create_records_cname_overwrites (z i : PyStr) (cfg : NetworkConfig)
    (l : List Member) (m1 m2 : Member)
    (hmem : m1 ∈ l) (hname : m1.name = m2.name)
    (hA1 : m1.config.authorized = true) (hI1 : m1.config.ipAssignments ≠ [])
    (hA2 : m2.config.authorized = true) (hI2 : m2.config.ipAssignments ≠ [])
    (hvalid : is_valid_hostname (friendlyDnsName z m2) = some true) :
    getRecord (create_records z ⟨i, cfg, l ++ [m2]⟩) (friendlyDnsName z m2)
        (pstr ("CNAME")) =
      some [nodeDnsName z m2] := by
  unfold create_records
  dsimp only
  rw [List.foldl_append, List.foldl_cons, List.foldl_nil]
  exact getRecord_addMember_CNAME z _ _ m2 ⟨hA2, hI2⟩ hvalid

/-- C10 witness: two active members both named `laptop`; the CNAME at
`laptop.zerotier.example.com` holds only the second member's node
name. -/
theorem create_records_cname_overwrites_witness :
    (⟨pstr ("deadbeef01"), pstr ("laptop"), ⟨true, [pstr ("10.0.0.5")]⟩⟩ :
        Member).name =
      (⟨pstr ("deadbeef02"), pstr ("laptop"), ⟨true, [pstr ("10.0.0.6")]⟩⟩ :
        Member).name ∧
    getRecord
        (create_records (pstr ("example.com"))
          ⟨pstr ("abcd0123456789ab"), ⟨⟨false⟩⟩,
            [⟨pstr ("deadbeef01"), pstr ("laptop"), ⟨true, [pstr ("10.0.0.5")]⟩⟩,
             ⟨pstr ("deadbeef02"), pstr ("laptop"), ⟨true, [pstr ("10.0.0.6")]⟩⟩]⟩)
        (friendlyDnsName (pstr ("example.com"))
          ⟨pstr ("deadbeef02"), pstr ("laptop"), ⟨true, [pstr ("10.0.0.6")]⟩⟩)
        (pstr ("CNAME")) =
      some [nodeDnsName (pstr ("example.com"))
        ⟨pstr ("deadbeef02"), pstr ("laptop"), ⟨true, [pstr ("10.0.0.6")]⟩⟩] := by
  refine ⟨rfl, ?_⟩
  exact
    create_records_cname_overwrites (pstr ("example.com")) (pstr ("abcd0123456789ab"))
      ⟨⟨false⟩⟩
      [⟨pstr ("deadbeef01"), pstr ("laptop"), ⟨true, [pstr ("10.0.0.5")]⟩⟩]
      ⟨pstr ("deadbeef01"), pstr ("laptop"), ⟨true, [pstr ("10.0.0.5")]⟩⟩
      ⟨pstr ("deadbeef02"), pstr ("laptop"), ⟨true, [pstr ("10.0.0.6")]⟩⟩
      (by decide) rfl rfl (by decide) rfl (by decide) (by decide)

/-- C1 counterexample: `create_records` assigns both the `A` and the
`AAAA` key unconditionally (routezero.py lines 91-92).  On a network
with `rfc4193` disabled, a member with only an IPv4 assignment gets an
`AAAA` entry whose value list is empty, and a member with only an IPv6
assignment gets an empty `A` entry — the record set does map names to
record types with empty value lists. -/
theorem create_records_empty_list_counterexample :
    getRecord
        (create_records (pstr ("example.com"))
          ⟨pstr ("abcd0123456789ab"), ⟨⟨false⟩⟩,
            [⟨pstr ("deadbeef01"), pstr ("laptop"), ⟨true, [pstr ("10.0.0.5")]⟩⟩,
             ⟨pstr ("deadbeef02"), pstr ("phone"), ⟨true, [pstr ("fd00::1")]⟩⟩]⟩)
        (dnsjoin [pstr ("deadbeef01"), NODE_NAMESPACE, pstr ("example.com")])
        (pstr ("AAAA")) =
      some [] ∧
    getRecord
        (create_records (pstr ("example.com"))
          ⟨pstr ("abcd0123456789ab"), ⟨⟨false⟩⟩,
            [⟨pstr ("deadbeef01"), pstr ("laptop"), ⟨true, [pstr ("10.0.0.5")]⟩⟩,
             ⟨pstr ("deadbeef02"), pstr ("phone"), ⟨true, [pstr ("fd00::1")]⟩⟩]⟩)
        (dnsjoin [pstr ("deadbeef02"), NODE_NAMESPACE, pstr ("example.com")])
        (pstr ("A")) =
      some [] :=
  ⟨rfl, rfl⟩

/-- C1 amended: the builder writes both the `A` and the `AAAA` key at
the node name of every active member, including when the corresponding
partition is empty.  An active member whose assignments are all IPv4, on
a network with `rfc4193` disabled, has an `AAAA` entry with the empty
value list; one whose assignments are all IPv6 has an empty `A`
entry. -/
theorem create_records_writes_empty_lists (z i : PyStr) (cfg : NetworkConfig)
    (l : List Member) (m : Member)
    (hAuth : m.config.authorized = true) (hIps : m.config.ipAssignments ≠ []) :
    (cfg.v6AssignMode.rfc4193 = false →
      (∀ ip ∈ m.config.ipAssignments, ip.contains ':' = false) →
      getRecord (create_records z ⟨i, cfg, l ++ [m]⟩) (nodeDnsName z m)
          (pstr ("AAAA")) =
        some []) ∧
    ((∀ ip ∈ m.config.ipAssignments, ip.contains ':' = true) →
      getRecord (create_records z ⟨i, cfg, l ++ [m]⟩) (nodeDnsName z m)
          (pstr ("A")) =
        some []) := by
  have hm : memberActive m := ⟨hAuth, hIps⟩
  constructor
  · intro hrfc hip
    unfold create_records
    dsimp only
    rw [List.foldl_append, List.foldl_cons, List.foldl_nil,
      getRecord_addMember_AAAA z _ _ m hm]
    have : memberIpv6 ⟨i, cfg, l ++ [m]⟩ m =
        m.config.ipAssignments.filter (fun ip => ip.contains ':') := by
      unfold memberIpv6
      dsimp only
      rw [hrfc]
      simp
    rw [this, List.filter_eq_nil_iff.mpr (fun ip h => by rw [hip ip h]; exact Bool.false_ne_true)]
  · intro hip
    unfold create_records
    dsimp only
    rw [List.foldl_append, List.foldl_cons, List.foldl_nil,
      getRecord_addMember_A z _ _ m hm]
    have : memberIpv4 m = [] :=
      List.filter_eq_nil_iff.mpr (fun ip h => by rw [hip ip h]; decide)
    rw [this]

/-- C1 amended witness: the member with a single IPv4 assignment from
the counterexample network indeed gets `AAAA ↦ []`. -/
theorem create_records_writes_empty_lists_witness :
    (⟨pstr ("deadbeef01"), pstr ("laptop"), ⟨true, [pstr ("10.0.0.5")]⟩⟩ :
        Member).config.authorized = true ∧
    getRecord
        (create_records (pstr ("example.com"))
          ⟨pstr ("abcd0123456789ab"), ⟨⟨false⟩⟩,
            [⟨pstr ("deadbeef01"), pstr ("laptop"), ⟨true, [pstr ("10.0.0.5")]⟩⟩]⟩)
        (nodeDnsName (pstr ("example.com"))
          ⟨pstr ("deadbeef01"), pstr ("laptop"), ⟨true, [pstr ("10.0.0.5")]⟩⟩)
        (pstr ("AAAA")) =
      some [] := by
  refine ⟨rfl, ?_⟩
  have h :=
    (create_records_writes_empty_lists (pstr ("example.com"))
      (pstr ("abcd0123456789ab")) ⟨⟨false⟩⟩ []
      ⟨pstr ("deadbeef01"), pstr ("laptop"), ⟨true, [pstr ("10.0.0.5")]⟩⟩
      rfl (by decide)).1 rfl (by decide)
  simpa using h

/-- C3 counterexample: on the empty string, `is_valid_hostname` reaches
`hostname[-1]` (no earlier return, since `len("") > 255` is false) and
raises `IndexError` instead of returning false. -/
theorem is_valid_hostname_empty_raises : is_valid_hostname (pstr ("")) = none := rfl

/-- C3 amended: on every non-empty input `is_valid_hostname` returns a
boolean and never raises; the empty string is the single exception,
where the indexing `hostname[-1]` fails. -/
theorem is_valid_hostname_total_on_nonempty (hostname : PyStr)
    (h : hostname ≠ []) : (is_valid_hostname hostname).isSome = true := by
  unfold is_valid_hostname
  split
  · rfl
  · cases hl : hostname.getLast? with
    | none => exact absurd (List.getLast?_eq_none_iff.mp hl) h
    | some c => simp [hl]

/-- C3 amended witness. -/
theorem is_valid_hostname_total_on_nonempty_witness :
    pstr ("laptop") ≠ ([] : PyStr) ∧
      (is_valid_hostname (pstr ("laptop"))).isSome = true :=
  ⟨by decide, is_valid_hostname_total_on_nonempty (pstr ("laptop")) (by decide)⟩

/-!  Helper lemmas for the hostname boundary claims. -/

/-- ASCII alphanumeric characters, the alphabet named by the boundary
property. -/
def isAsciiAlnum (c : Char) : Bool :=
  decide ('A' ≤ c ∧ c ≤ 'Z') || decide ('a' ≤ c ∧ c ≤ 'z') ||
    decide ('0' ≤ c ∧ c ≤ '9')

theorem isLDHChar_of_alnum (c : Char) (h : isAsciiAlnum c = true) :
    isLDHChar c = true := by
  have he : isLDHChar c = (isAsciiAlnum c || decide (c = '-')) := rfl
  rw [he, h, Bool.true_or]

theorem mem_of_head?_eq_some {α : Type} {l : List α} {a : α}
    (h : l.head? = some a) : a ∈ l := by
  obtain ⟨ys, rfl⟩ := List.head?_eq_some_iff.mp h
  exact List.mem_cons_self _ _

theorem head?_dropLast_of_head? {α : Type} {l : List α} {a : α}
    (h : l.head? = some a) :
    l.dropLast = [] ∨ l.dropLast.head? = some a := by
  obtain ⟨ys, rfl⟩ := List.head?_eq_some_iff.mp h
  cases ys with
  | nil => exact Or.inl rfl
  | cons y ys' => exact Or.inr (by simp)

theorem splitOnChar_of_not_mem (c : Char) (l : List Char) (h : c ∉ l) :
    splitOnChar c l = [l] := by
  induction l with
  | nil => rfl
  | cons x xs ih =>
    have hx : ¬ x = c := fun hh => h (hh ▸ List.mem_cons_self x xs)
    have hxs : c ∉ xs := fun hh => h (List.mem_cons_of_mem _ hh)
    simp only [splitOnChar, if_neg hx, ih hxs]

theorem is_valid_hostname_all_alnum (s : PyStr) (hne : s ≠ [])
    (hlen : s.length ≤ 255) (halnum : ∀ c ∈ s, isAsciiAlnum c = true) :
    is_valid_hostname s = some (labelMatch s) := by
  obtain ⟨c, hc⟩ : ∃ c, s.getLast? = some c := by
    cases hl : s.getLast? with
    | none => exact absurd (List.getLast?_eq_none_iff.mp hl) hne
    | some c => exact ⟨c, rfl⟩
  have hcal := halnum c (List.mem_of_getLast?_eq_some hc)
  have hdot : ¬ s.getLast? = some '.' := by
    rw [hc]
    intro hh
    rw [Option.some.inj hh] at hcal
    exact absurd hcal (by decide)
  have htrim : trimTrailingDot s = s := by
    unfold trimTrailingDot
    rw [if_neg hdot]
  have hnodot : '.' ∉ s := fun hmem => absurd (halnum '.' hmem) (by decide)
  unfold is_valid_hostname
  rw [if_neg (by omega)]
  simp only [hc, htrim, splitOnChar_of_not_mem '.' s hnodot, List.all_cons,
    List.all_nil, Bool.and_true]

theorem labelCore_alnum (s : PyStr) (hne : s ≠ [])
    (halnum : ∀ c ∈ s, isAsciiAlnum c = true) (hlen : s.length ≤ 63) :
    labelCore s = true := by
  have h1 : 0 < s.length := List.length_pos.mpr hne
  have hhead : ¬ s.head? = some '-' := by
    intro hh
    exact absurd (halnum '-' (mem_of_head?_eq_some hh)) (by decide)
  have hlast : ¬ s.getLast? = some '-' := by
    intro hh
    exact absurd (halnum '-' (List.mem_of_getLast?_eq_some hh)) (by decide)
  have h1' : 1 ≤ s.length := h1
  have hLDH : s.all isLDHChar = true :=
    List.all_eq_true.mpr (fun c hcm => isLDHChar_of_alnum c (halnum c hcm))
  unfold labelCore
  simp [h1', hlen, hhead, hlast, hLDH]

theorem labelMatch_hyphen_edge (l : PyStr)
    (h : l.head? = some '-' ∨ l.getLast? = some '-') : labelMatch l = false := by
  unfold labelMatch labelCore
  rcases h with h | h
  · rcases head?_dropLast_of_head? h with hd | hd
    · simp [h, hd]
    · simp [h, hd]
  · have hnl : ¬ l.getLast? = some '\n' := by
      rw [h]
      intro hh
      exact absurd (Option.some.inj hh) (by decide)
    simp [h, hnl]

/-- C8: hostname validity boundaries.  A single label of exactly 63
ASCII-alphanumeric characters is accepted; one of 64 such characters is
rejected; any non-empty name one of whose labels (after the
trailing-dot trim) starts or ends with a hyphen is rejected; and any
name whose post-trim length is 256 is rejected (the length gate fires
on the pre-trim length, which is then at least 256). -/
theorem is_valid_hostname_boundaries :
    (∀ s : PyStr, s.length = 63 → (∀ c ∈ s, isAsciiAlnum c = true) →
        is_valid_hostname s = some true) ∧
    (∀ s : PyStr, s.length = 64 → (∀ c ∈ s, isAsciiAlnum c = true) →
        is_valid_hostname s = some false) ∧
    (∀ s : PyStr, s ≠ [] →
        (∃ l ∈ splitOnChar '.' (trimTrailingDot s),
          l.head? = some '-' ∨ l.getLast? = some '-') →
        is_valid_hostname s = some false) ∧
    (∀ s : PyStr, (trimTrailingDot s).length = 256 →
        is_valid_hostname s = some false) := by
  refine ⟨?_, ?_, ?_, ?_⟩
  · intro s hlen halnum
    have hne : s ≠ [] := by
      intro h
      rw [h] at hlen
      exact absurd hlen (by decide)
    rw [is_valid_hostname_all_alnum s hne (by omega) halnum]
    have hcore := labelCore_alnum s hne halnum (by omega)
    unfold labelMatch
    rw [hcore, Bool.true_or]
  · intro s hlen halnum
    have hne : s ≠ [] := by
      intro h
      rw [h] at hlen
      exact absurd hlen (by decide)
    rw [is_valid_hostname_all_alnum s hne (by omega) halnum]
    obtain ⟨c, hc⟩ : ∃ c, s.getLast? = some c := by
      cases hl : s.getLast? with
      | none => exact absurd (List.getLast?_eq_none_iff.mp hl) hne
      | some c => exact ⟨c, rfl⟩
    have hnl : ¬ s.getLast? = some '\n' := by
      rw [hc]
      intro hh
      exact absurd (halnum '\n'
        ((Option.some.inj hh) ▸ List.mem_of_getLast?_eq_some hc)) (by decide)
    unfold labelMatch labelCore
    simp [hlen, hnl]
  · intro s hne hex
    unfold is_valid_hostname
    by_cases hlen : 255 < s.length
    · rw [if_pos hlen]
    · rw [if_neg hlen]
      obtain ⟨c, hc⟩ : ∃ c, s.getLast? = some c := by
        cases hl : s.getLast? with
        | none => exact absurd (List.getLast?_eq_none_iff.mp hl) hne
        | some c => exact ⟨c, rfl⟩
      simp only [hc]
      obtain ⟨l, hlmem, hl⟩ := hex
      refine congrArg some (List.all_eq_false.mpr ⟨l, hlmem, ?_⟩)
      rw [labelMatch_hyphen_edge l hl]
      decide
  · intro s hlen
    have h255 : 255 < s.length := by
      unfold trimTrailingDot at hlen
      split at hlen
      · rw [List.length_dropLast] at hlen
        omega
      · omega
    unfold is_valid_hostname
    rw [if_pos h255]

set_option maxRecDepth 8000 in
/-- C8 witness: the four boundaries at concrete inputs — 63 `a`s are
valid, 64 are not, `a.-b.c` has a label starting with a hyphen, and 256
`a`s exceed the length gate. -/
theorem is_valid_hostname_boundaries_witness :
    is_valid_hostname
        (pstr ("aaaaaaaaaaaaaaaaaaaaaaaaaaaaaaaaaaaaaaaaaaaaaaaaaaaaaaaaaaaaaaa")) =
      some true ∧
    is_valid_hostname
        (pstr ("aaaaaaaaaaaaaaaaaaaaaaaaaaaaaaaaaaaaaaaaaaaaaaaaaaaaaaaaaaaaaaaa")) =
      some false ∧
    is_valid_hostname (pstr ("a.-b.c")) = some false ∧
    is_valid_hostname (pstr (String.mk (List.replicate 256 'a'))) = some false :=
  ⟨is_valid_hostname_boundaries.1 _ (by decide) (by decide),
   is_valid_hostname_boundaries.2.1 _ (by decide) (by decide),
   is_valid_hostname_boundaries.2.2.1 _ (by decide) (by decide),
   is_valid_hostname_boundaries.2.2.2 _ (by decide)⟩

/-!  Lemmas for the derived-address format. -/

theorem splitOnChar_append_cons (c : Char) (g rest : List Char) (hg : c ∉ g) :
    splitOnChar c (g ++ c :: rest) = g :: splitOnChar c rest := by
  induction g with
  | nil => simp [splitOnChar]
  | cons x xs ih =>
    have hx : ¬ x = c := fun hh => hg (hh ▸ List.mem_cons_self x xs)
    have hxs : c ∉ xs := fun hh => hg (List.mem_cons_of_mem _ hh)
    show splitOnChar c (x :: (xs ++ c :: rest)) = (x :: xs) :: splitOnChar c rest
    rw [splitOnChar, if_neg hx, ih hxs]

theorem splitOnChar_joinChar (c : Char) (gs : List PyStr) (hne : gs ≠ [])
    (h : ∀ g ∈ gs, c ∉ g) :
    splitOnChar c (joinChar c gs) = gs := by
  induction gs with
  | nil => exact absurd rfl hne
  | cons g rest ih =>
    cases rest with
    | nil =>
      show splitOnChar c (joinChar c [g]) = [g]
      unfold joinChar
      exact splitOnChar_of_not_mem c g (h g (List.mem_cons_self _ _))
    | cons g2 rest2 =>
      show splitOnChar c (g ++ c :: joinChar c (g2 :: rest2)) = g :: g2 :: rest2
      rw [splitOnChar_append_cons c g _ (h g (List.mem_cons_self _ _)),
        ih (by simp) (fun g' hg' => h g' (List.mem_cons_of_mem _ hg'))]

theorem chunk4_spec (k : Nat) (l : List Char) (hl : l.length = 4 * k) :
    (chunk4 l).length = k ∧ (∀ g ∈ chunk4 l, g.length = 4) ∧
      (chunk4 l).flatten = l := by
  induction k generalizing l with
  | zero =>
    have : l = [] := List.length_eq_zero.mp (by omega)
    subst this
    exact ⟨rfl, by simp [chunk4], rfl⟩
  | succ n ih =>
    obtain ⟨a, b, c, d, rest, rfl⟩ : ∃ a b c d rest,
        l = a :: b :: c :: d :: rest := by
      cases l with
      | nil => simp at hl
      | cons a l1 =>
        cases l1 with
        | nil =>
          simp only [List.length_cons, List.length_nil] at hl
          omega
        | cons b l2 =>
          cases l2 with
          | nil =>
            simp only [List.length_cons, List.length_nil] at hl
            omega
          | cons c l3 =>
            cases l3 with
            | nil =>
              simp only [List.length_cons, List.length_nil] at hl
              omega
            | cons d rest => exact ⟨a, b, c, d, rest, rfl⟩
    have hrest : rest.length = 4 * n := by
      simp only [List.length_cons] at hl
      omega
    obtain ⟨ih1, ih2, ih3⟩ := ih rest hrest
    refine ⟨by simp [chunk4, ih1], ?_, by simp [chunk4, ih3]⟩
    intro g hg
    rw [show chunk4 (a :: b :: c :: d :: rest) = [a, b, c, d] :: chunk4 rest
      from rfl] at hg
    rcases List.mem_cons.mp hg with rfl | hg
    · rfl
    · exact ih2 g hg

theorem mem_hex_ranges : ∀ x ∈ pstr ("0123456789abcdef"), ¬ x = ':' ∧ ¬ x = '-' := by
  decide

theorem isLowerHexDigit_ne_colon (x : Char) (h : isLowerHexDigit x = true) :
    ¬ x = ':' := by
  unfold isLowerHexDigit at h
  exact (mem_hex_ranges x (of_decide_eq_true h)).1

/-- C4 counterexample: on a 10-hex-digit network identifier (together
with the 10-hex-digit node identifier) the concatenation has 26
characters, so the output has 7 colon-separated groups, the last of
length 2 — not 8 groups of 4.  (The 32-hex-digit concatenation the spec
describes requires the 16-hex-digit network identifier that the ZeroTier
API actually returns.) -/
theorem get_rfc4193_address_ten_digit_counterexample :
    (pstr ("abcd012345")).length = 10 ∧
    (∀ ch ∈ pstr ("abcd012345"), isLowerHexDigit ch = true) ∧
    (pstr ("deadbeef01")).length = 10 ∧
    (∀ ch ∈ pstr ("deadbeef01"), isLowerHexDigit ch = true) ∧
    get_rfc4193_address (pstr ("abcd012345")) (pstr ("deadbeef01")) =
      pstr ("fdab:cd01:2345:9993:dead:beef:01") ∧
    ¬ ((splitOnChar ':' (get_rfc4193_address (pstr ("abcd012345"))
          (pstr ("deadbeef01")))).length = 8 ∧
        ∀ g ∈ splitOnChar ':' (get_rfc4193_address (pstr ("abcd012345"))
          (pstr ("deadbeef01"))), g.length = 4) := by
  decide

/-- C4 amended: for a 16-hex-digit network identifier and a
10-hex-digit node identifier (the widths the ZeroTier API produces),
the output of `get_rfc4193_address` is exactly 8 groups of 4 characters
separated by `:`, whose concatenation is `fd` + networkId + `9993` +
nodeId. -/
theorem get_rfc4193_address_format (network_id node_id : PyStr)
    (hn : network_id.length = 16) (hm : node_id.length = 10)
    (hhex : ∀ ch ∈ network_id ++ node_id, isLowerHexDigit ch = true) :
    (splitOnChar ':' (get_rfc4193_address network_id node_id)).length = 8 ∧
    (∀ g ∈ splitOnChar ':' (get_rfc4193_address network_id node_id),
      g.length = 4) ∧
    (splitOnChar ':' (get_rfc4193_address network_id node_id)).flatten =
      pstr ("fd") ++ network_id ++ pstr ("9993") ++ node_id := by
  have hlen : (pstr ("fd") ++ network_id ++ pstr ("9993") ++ node_id).length =
      4 * 8 := by
    simp [pstr]
    omega
  obtain ⟨h1, h2, h3⟩ :=
    chunk4_spec 8 (pstr ("fd") ++ network_id ++ pstr ("9993") ++ node_id) hlen
  have hnocolon : ∀ g ∈ chunk4 (pstr ("fd") ++ network_id ++ pstr ("9993") ++
      node_id), ':' ∉ g := by
    intro g hg hcg
    have hmem : ':' ∈ pstr ("fd") ++ network_id ++ pstr ("9993") ++ node_id :=
      h3 ▸ List.mem_flatten_of_mem hg hcg
    rcases List.mem_append.mp hmem with hmem | hmem
    · rcases List.mem_append.mp hmem with hmem | hmem
      · rcases List.mem_append.mp hmem with hmem | hmem
        · simp [pstr] at hmem
        · exact absurd rfl (isLowerHexDigit_ne_colon ':'
            (hhex ':' (List.mem_append_left _ hmem)))
      · simp [pstr] at hmem
    · exact absurd rfl (isLowerHexDigit_ne_colon ':'
        (hhex ':' (List.mem_append_right _ hmem)))
  have hne : chunk4 (pstr ("fd") ++ network_id ++ pstr ("9993") ++ node_id) ≠
      [] := by
    intro hh
    rw [hh] at h1
    exact absurd h1.symm (by decide)
  unfold get_rfc4193_address
  rw [splitOnChar_joinChar ':' _ hne hnocolon]
  exact ⟨h1, h2, h3⟩

/-- C4 amended witness: a 16-hex-digit network id and 10-hex-digit node
id give 8 groups of 4 whose concatenation is the expected string. -/
theorem get_rfc4193_address_format_witness :
    (pstr ("abcd0123456789ab")).length = 16 ∧
    (splitOnChar ':' (get_rfc4193_address (pstr ("abcd0123456789ab"))
        (pstr ("deadbeef01")))).length = 8 ∧
    (∀ g ∈ splitOnChar ':' (get_rfc4193_address (pstr ("abcd0123456789ab"))
        (pstr ("deadbeef01"))), g.length = 4) ∧
    (splitOnChar ':' (get_rfc4193_address (pstr ("abcd0123456789ab"))
        (pstr ("deadbeef01")))).flatten =
      pstr ("fd") ++ pstr ("abcd0123456789ab") ++ pstr ("9993") ++
        pstr ("deadbeef01") := by
  have h := get_rfc4193_address_format (pstr ("abcd0123456789ab"))
    (pstr ("deadbeef01")) (by decide) (by decide) (by decide)
  exact ⟨by decide, h.1, h.2.1, h.2.2⟩

/-!  Lemmas for the fresh-marker resource of `create_template`. -/

theorem pyUpperChar_inj_on_hex :
    ∀ x ∈ pstr ("0123456789abcdef"), ∀ y ∈ pstr ("0123456789abcdef"),
      pyUpperChar x = pyUpperChar y → x = y := by
  decide

theorem map_pyUpperChar_inj (xs ys : PyStr)
    (hx : ∀ x ∈ xs, isLowerHexDigit x = true)
    (hy : ∀ y ∈ ys, isLowerHexDigit y = true)
    (h : xs.map pyUpperChar = ys.map pyUpperChar) : xs = ys := by
  induction xs generalizing ys with
  | nil =>
    cases ys with
    | nil => rfl
    | cons y ys => simp at h
  | cons x xs ih =>
    cases ys with
    | nil => simp at h
    | cons y ys =>
      simp only [List.map_cons, List.cons.injEq] at h
      obtain ⟨h1, h2⟩ := h
      have hx1 : x ∈ pstr ("0123456789abcdef") :=
        of_decide_eq_true (hx x (List.mem_cons_self _ _))
      have hy1 : y ∈ pstr ("0123456789abcdef") :=
        of_decide_eq_true (hy y (List.mem_cons_self _ _))
      rw [pyUpperChar_inj_on_hex x hx1 y hy1 h1,
        ih ys (fun x' hx' => hx x' (List.mem_cons_of_mem _ hx'))
          (fun y' hy' => hy y' (List.mem_cons_of_mem _ hy')) h2]

theorem hex_filter_keep : ∀ x ∈ pstr ("0123456789abcdef"),
    (decide ¬ x = '-') = true := by
  decide

theorem filter_hyphens_of_hex (l : PyStr)
    (h : ∀ x ∈ l, isLowerHexDigit x = true) :
    l.filter (fun ch => ch ≠ '-') = l :=
  List.filter_eq_self.mpr
    (fun x hx => hex_filter_keep x (of_decide_eq_true (h x hx)))

theorem dummySuffix_inj (u v : PyStr) (hu : uuidCanonical u)
    (hv : uuidCanonical v) (h : dummySuffix u = dummySuffix v) : u = v := by
  obtain ⟨a, b, c, d, e, rfl, ha, hb, hc, hd, he, hhex⟩ := hu
  obtain ⟨a', b', c', d', e', rfl, ha', hb', hc', hd', he', hhex'⟩ := hv
  have hxa : ∀ x ∈ a, isLowerHexDigit x = true := fun x hx =>
    hhex x (by simp [hx])
  have hxb : ∀ x ∈ b, isLowerHexDigit x = true := fun x hx =>
    hhex x (by simp [hx])
  have hxc : ∀ x ∈ c, isLowerHexDigit x = true := fun x hx =>
    hhex x (by simp [hx])
  have hxd : ∀ x ∈ d, isLowerHexDigit x = true := fun x hx =>
    hhex x (by simp [hx])
  have hxe : ∀ x ∈ e, isLowerHexDigit x = true := fun x hx =>
    hhex x (by simp [hx])
  have hxa' : ∀ x ∈ a', isLowerHexDigit x = true := fun x hx =>
    hhex' x (by simp [hx])
  have hxb' : ∀ x ∈ b', isLowerHexDigit x = true := fun x hx =>
    hhex' x (by simp [hx])
  have hxc' : ∀ x ∈ c', isLowerHexDigit x = true := fun x hx =>
    hhex' x (by simp [hx])
  have hxd' : ∀ x ∈ d', isLowerHexDigit x = true := fun x hx =>
    hhex' x (by simp [hx])
  have hxe' : ∀ x ∈ e', isLowerHexDigit x = true := fun x hx =>
    hhex' x (by simp [hx])
  have hstep : ∀ (w rest : PyStr), (∀ x ∈ w, isLowerHexDigit x = true) →
      (w ++ '-' :: rest).filter (fun ch => ch ≠ '-') =
        w ++ rest.filter (fun ch => ch ≠ '-') := by
    intro w rest hw
    rw [List.filter_append, filter_hyphens_of_hex w hw,
      List.filter_cons_of_neg (by decide)]
  have hf : ∀ (p q r s t : PyStr), (∀ x ∈ p, isLowerHexDigit x = true) →
      (∀ x ∈ q, isLowerHexDigit x = true) →
      (∀ x ∈ r, isLowerHexDigit x = true) →
      (∀ x ∈ s, isLowerHexDigit x = true) →
      (∀ x ∈ t, isLowerHexDigit x = true) →
      (p ++ '-' :: (q ++ '-' :: (r ++ '-' :: (s ++ '-' :: t)))).filter
          (fun ch => ch ≠ '-') =
        p ++ (q ++ (r ++ (s ++ t))) := by
    intro p q r s t hp hq hr hs ht
    rw [hstep p _ hp, hstep q _ hq, hstep r _ hr, hstep s _ hs,
      filter_hyphens_of_hex t ht]
  unfold dummySuffix at h
  rw [hf a b c d e hxa hxb hxc hxd hxe, hf a' b' c' d' e' hxa' hxb' hxc' hxd' hxe'] at h
  have hcat : a ++ (b ++ (c ++ (d ++ e))) = a' ++ (b' ++ (c' ++ (d' ++ e'))) := by
    apply map_pyUpperChar_inj _ _ _ _ h
    · intro x hx
      simp only [List.mem_append] at hx
      rcases hx with hx | hx | hx | hx | hx
      · exact hxa x hx
      · exact hxb x hx
      · exact hxc x hx
      · exact hxd x hx
      · exact hxe x hx
    · intro y hy
      simp only [List.mem_append] at hy
      rcases hy with hy | hy | hy | hy | hy
      · exact hxa' y hy
      · exact hxb' y hy
      · exact hxc' y hy
      · exact hxd' y hy
      · exact hxe' y hy
  obtain ⟨e1, hcat2⟩ := List.append_inj hcat (ha.trans ha'.symm)
  obtain ⟨e2, hcat3⟩ := List.append_inj hcat2 (hb.trans hb'.symm)
  obtain ⟨e3, hcat4⟩ := List.append_inj hcat3 (hc.trans hc'.symm)
  obtain ⟨e4, e5⟩ := List.append_inj hcat4 (hd.trans hd'.symm)
  rw [e1, e2, e3, e4, e5]

/-- C9: every template built by `create_template` contains, besides the
`Records` record-set group, a `WaitConditionHandle` marker resource, and
for two invocations whose fresh uuid renderings differ (uuid4 draws in
canonical form), the marker's logical name differs — so a second deploy
of an identical record set still carries a changed resource and is not
an empty no-op. -/
theorem create_template_fresh_marker (zone : PyStr) (records : RecordSet)
    (u v : PyStr) (hu : uuidCanonical u) (hv : uuidCanonical v)
    (huv : u ≠ v) :
    (dummyChangeName u, CfnResource.waitConditionHandle) ∈
        (create_template zone records u).resources ∧
    (∃ rs, (pstr ("Records"), CfnResource.recordSetGroup
        (rstripDots zone ++ ['.']) rs) ∈ (create_template zone records u).resources) ∧
    dummyChangeName u ≠ dummyChangeName v := by
  refine ⟨?_, ?_, ?_⟩
  · unfold create_template
    exact List.mem_cons_of_mem _ (List.mem_cons_self _ _)
  · unfold create_template
    exact ⟨_, List.mem_cons_self _ _⟩
  · intro hh
    exact huv (dummySuffix_inj u v hu hv (List.append_cancel_left hh))

/-- C9 witness: two concrete canonical uuid renderings, distinct, give
distinct marker names, and the marker is present alongside the record
group. -/
theorem create_template_fresh_marker_witness :
    (dummyChangeName (pstr ("aaaaaaaa-aaaa-aaaa-aaaa-aaaaaaaaaaaa")),
        CfnResource.waitConditionHandle) ∈
      (create_template (pstr ("example.com")) []
        (pstr ("aaaaaaaa-aaaa-aaaa-aaaa-aaaaaaaaaaaa"))).resources ∧
    dummyChangeName (pstr ("aaaaaaaa-aaaa-aaaa-aaaa-aaaaaaaaaaaa")) ≠
      dummyChangeName (pstr ("bbbbbbbb-bbbb-bbbb-bbbb-bbbbbbbbbbbb")) := by
  have h := create_template_fresh_marker (pstr ("example.com")) []
    (pstr ("aaaaaaaa-aaaa-aaaa-aaaa-aaaaaaaaaaaa"))
    (pstr ("bbbbbbbb-bbbb-bbbb-bbbb-bbbbbbbbbbbb"))
    ⟨pstr ("aaaaaaaa"), pstr ("aaaa"), pstr ("aaaa"), pstr ("aaaa"),
      pstr ("aaaaaaaaaaaa"), by decide⟩
    ⟨pstr ("bbbbbbbb"), pstr ("bbbb"), pstr ("bbbb"), pstr ("bbbb"),
      pstr ("bbbbbbbbbbbb"), by decide⟩
    (by decide)
  exact ⟨h.1, h.2.2⟩
